import Mathlib

/-!
Verification of the rememberfiy spaced-repetition core.

Shallow embedding of the Convex backend functions in
`convex/quizzes.ts` (createQuiz, getQuizzesDueForReview, updateQuizReview,
deleteQuiz) and `convex/quizAttempts.ts` (recordQuizAttempt).

JavaScript numbers (timestamps, scores) are modelled as rationals `ℚ`;
record identifiers as `Nat`, freshly allocated from a counter carried by
the store, mirroring the Convex document database assigning a new `_id`
on every insert.  A Convex mutation that throws rolls back, so a failing
operation is modelled as `Except.error` carrying no successor state.
-/

/-- One row of the `quizzes` table (see `schema.ts`). -/
structure Quiz where
  id : Nat
  userId : Nat
  title : String
  content : String
  summary : Option String
  fileType : String
  fileName : Option String
  createdAt : ℚ
  lastReviewedAt : Option ℚ
  nextReviewAt : ℚ
  reviewCount : Nat
  difficulty : String
deriving DecidableEq, Repr

/-- One row of the `questions` table. -/
structure Question where
  id : Nat
  quizId : Nat
  questionText : String
  questionType : String
  options : Option (List String)
  correctAnswer : String
  explanation : String
  orderIndex : Nat
deriving DecidableEq, Repr

/-- One row of the `quizAttempts` table.  The `answers` payload is
`v.array(v.any())` in the source; it is opaque to every operation, so it
is modelled as a list of strings. -/
structure QuizAttempt where
  id : Nat
  quizId : Nat
  userId : Nat
  score : ℚ
  totalQuestions : ℚ
  completedAt : ℚ
  answers : List String
  timeTaken : Option ℚ
deriving DecidableEq, Repr

/-- The document store: the three tables the reviewed core touches, plus
the id-allocation counter of the database. -/
structure Db where
  quizzes : List Quiz
  questions : List Question
  attempts : List QuizAttempt
  nextId : Nat
deriving DecidableEq, Repr

/-- One day in milliseconds, the unit used throughout the source
(`24 * 60 * 60 * 1000`). -/
def dayMs : ℚ := 24 * 60 * 60 * 1000

/-- Argument record of the `questions` array passed to `createQuiz`. -/
structure QuestionInput where
  questionText : String
  questionType : String
  options : Option (List String)
  correctAnswer : String
  explanation : String
deriving DecidableEq, Repr

/-- Argument record of `createQuiz`. -/
structure CreateQuizArgs where
  userId : Nat
  title : String
  content : String
  summary : Option String
  fileType : String
  fileName : Option String
  difficulty : String
  questions : List QuestionInput
deriving DecidableEq, Repr

/-- The quiz row inserted by `createQuiz`: `createdAt = now`,
`nextReviewAt = now + 1 day`, `reviewCount = 0`, no `lastReviewedAt`. -/
def newQuizRow (args : CreateQuizArgs) (now : ℚ) (quizId : Nat) : Quiz :=
  { id := quizId
    userId := args.userId
    title := args.title
    content := args.content
    summary := args.summary
    fileType := args.fileType
    fileName := args.fileName
    createdAt := now
    lastReviewedAt := none
    nextReviewAt := now + dayMs
    reviewCount := 0
    difficulty := args.difficulty }

/-- The question row inserted for entry `i` of the `questions` argument. -/
def newQuestionRow (quizId : Nat) (qid : Nat) (i : Nat) (q : QuestionInput) :
    Question :=
  { id := qid
    quizId := quizId
    questionText := q.questionText
    questionType := q.questionType
    options := q.options
    correctAnswer := q.correctAnswer
    explanation := q.explanation
    orderIndex := i }

/-- `createQuiz` mutation (`convex/quizzes.ts`): inserts the quiz row with
`nextReviewAt = now + 1 day` and `reviewCount = 0`, then one question row
per entry with `orderIndex = i`; returns the new quiz id. -/
def createQuiz (db : Db) (args : CreateQuizArgs) (now : ℚ) : Db × Nat :=
  let quizId := db.nextId
  let questionRows := args.questions.enum.map
    (fun p => newQuestionRow quizId (quizId + 1 + p.1) p.1 p.2)
  ({ quizzes := db.quizzes ++ [newQuizRow args now quizId]
     questions := db.questions ++ questionRows
     attempts := db.attempts
     nextId := quizId + 1 + args.questions.length }, quizId)

/-- `getQuizzesDueForReview` query (`convex/quizzes.ts`): all quizzes of
`userId` (the `by_user` index), filtered by `nextReviewAt <= now`. -/
def getQuizzesDueForReview (db : Db) (userId : Nat) (now : ℚ) : List Quiz :=
  (db.quizzes.filter (fun q => q.userId == userId)).filter
    (fun q => decide (q.nextReviewAt ≤ now))

/-- The review interval chosen by `updateQuizReview` (lines 120-130 of the
source): high band `2^(reviewCount+1)` days for `performance >= 0.9`, mid
band `1.5^(reviewCount+1)` days for `performance >= 0.7`, else 1 day. -/
def reviewIntervalMs (reviewCount : Nat) (performance : ℚ) : ℚ :=
  if performance ≥ 9/10 then 2 ^ (reviewCount + 1) * dayMs
  else if performance ≥ 7/10 then ((3 : ℚ)/2) ^ (reviewCount + 1) * dayMs
  else dayMs

/-- The patch applied by `updateQuizReview` to the quiz row. -/
def patchReview (now interval : ℚ) (c : Nat) (q : Quiz) : Quiz :=
  { q with lastReviewedAt := some now
           nextReviewAt := now + interval
           reviewCount := c + 1 }

/-- `updateQuizReview` mutation (`convex/quizzes.ts`): loads the quiz
(throwing `"Quiz not found"` when absent), computes
`performance = score / totalQuestions`, picks the interval, and patches
`lastReviewedAt`, `nextReviewAt`, `reviewCount`; returns `nextReviewAt`.
The source performs no validation of `score` or `totalQuestions`. -/
def updateQuizReview (db : Db) (quizId : Nat) (score totalQuestions : ℚ)
    (now : ℚ) : Except String (Db × ℚ) :=
  match db.quizzes.find? (fun q => q.id == quizId) with
  | none => .error "Quiz not found"
  | some quiz =>
    let performance := score / totalQuestions
    let reviewInterval := reviewIntervalMs quiz.reviewCount performance
    let db2 := { db with quizzes := db.quizzes.map (fun q =>
        if q.id == quizId then patchReview now reviewInterval quiz.reviewCount q
        else q) }
    .ok (db2, now + reviewInterval)

/-- State after a mutation returning `Except`: a throwing Convex mutation
rolls back, so the error branch leaves the store as it was. -/
def stateAfter (r : Except String (Db × ℚ)) (db : Db) : Db :=
  match r with
  | .ok p => p.1
  | .error _ => db

/-- The attempt row inserted by `recordQuizAttempt`
(`convex/quizAttempts.ts`): `completedAt` is the insertion time. -/
def newAttemptRow (attemptId quizId userId : Nat) (score totalQuestions : ℚ)
    (answers : List String) (timeTaken : Option ℚ) (now : ℚ) : QuizAttempt :=
  { id := attemptId
    quizId := quizId
    userId := userId
    score := score
    totalQuestions := totalQuestions
    completedAt := now
    answers := answers
    timeTaken := timeTaken }

/-- `recordQuizAttempt` mutation (`convex/quizAttempts.ts`): inserts one
`quizAttempts` row with `completedAt = Date.now()` and returns its id. -/
def recordQuizAttempt (db : Db) (quizId userId : Nat)
    (score totalQuestions : ℚ) (answers : List String)
    (timeTaken : Option ℚ) (now : ℚ) : Db × Nat :=
  let attemptId := db.nextId
  ({ db with
      attempts := db.attempts ++
        [newAttemptRow attemptId quizId userId score totalQuestions answers
          timeTaken now]
      nextId := attemptId + 1 }, attemptId)

/-- `deleteQuiz` mutation (`convex/quizzes.ts`): deletes every question
with this `quizId`, every attempt with this `quizId`, then the quiz row. -/
def deleteQuiz (db : Db) (quizId : Nat) : Db :=
  { quizzes := db.quizzes.filter (fun q => !(q.id == quizId))
    questions := db.questions.filter (fun q => !(q.quizId == quizId))
    attempts := db.attempts.filter (fun a => !(a.quizId == quizId))
    nextId := db.nextId }

/-- A concrete store with one quiz, used to instantiate the theorems. -/
def exQuiz : Quiz :=
  { id := 1, userId := 5, title := "t", content := "c", summary := none,
    fileType := "text", fileName := none, createdAt := 0,
    lastReviewedAt := none, nextReviewAt := 86400000, reviewCount := 0,
    difficulty := "Easy" }

def exDb : Db :=
  { quizzes := [exQuiz], questions := [], attempts := [], nextId := 2 }

/-- The row of `exQuiz` after a high-band review at time 1000. -/
def exQuiz9 : Quiz :=
  { exQuiz with
    lastReviewedAt := some 1000
    nextReviewAt := 172801000
    reviewCount := 1 }

def exDb9 : Db :=
  { quizzes := [exQuiz9], questions := [], attempts := [], nextId := 2 }

def exArgs : CreateQuizArgs :=
  { userId := 5, title := "t2", content := "c2", summary := none,
    fileType := "text", fileName := none, difficulty := "Easy",
    questions := [] }

theorem mem_due_iff (db : Db) (userId : Nat) (now : ℚ) (q : Quiz) :
    q ∈ getQuizzesDueForReview db userId now ↔
      q ∈ db.quizzes ∧ q.userId = userId ∧ q.nextReviewAt ≤ now := by
  simp only [getQuizzesDueForReview, List.mem_filter, decide_eq_true_eq,
    beq_iff_eq, and_assoc]

theorem updateQuizReview_ok_elim {db db2 : Db} {quizId : Nat}
    {score totalQuestions now r : ℚ}
    (h : updateQuizReview db quizId score totalQuestions now =
      Except.ok (db2, r)) :
    ∃ quiz, db.quizzes.find? (fun q => q.id == quizId) = some quiz ∧
      db2 = { db with quizzes := db.quizzes.map (fun q =>
          if q.id == quizId then
            patchReview now
              (reviewIntervalMs quiz.reviewCount (score / totalQuestions))
              quiz.reviewCount q
          else q) } ∧
      r = now + reviewIntervalMs quiz.reviewCount (score / totalQuestions) := by
  unfold updateQuizReview at h
  cases hf : db.quizzes.find? (fun q => q.id == quizId) with
  | none => rw [hf] at h; exact absurd h (by simp)
  | some quiz =>
    rw [hf] at h
    simp only [Except.ok.injEq, Prod.mk.injEq] at h
    exact ⟨quiz, rfl, h.1.symm, h.2.symm⟩

theorem dayMs_le_reviewIntervalMs (c : Nat) (p : ℚ) :
    dayMs ≤ reviewIntervalMs c p := by
  unfold reviewIntervalMs
  split
  · exact le_mul_of_one_le_left (by norm_num [dayMs]) (one_le_pow₀ (by norm_num))
  · split
    · exact le_mul_of_one_le_left (by norm_num [dayMs]) (one_le_pow₀ (by norm_num))
    · exact le_refl dayMs

/-- C1: for valid inputs, `updateQuizReview` schedules `now + 2^(r+1)` days
in the high band (performance at least 0.9), `now + 1.5^(r+1)` days in the
mid band, and `now + 1` day in the low band, a day being 86400000 ms. -/
theorem updateQuizReview_bands (db : Db) (quizId : Nat) (quiz : Quiz)
    (score totalQuestions now : ℚ)
    (hfind : db.quizzes.find? (fun q => q.id == quizId) = some quiz)
    (hT : 0 < totalQuestions) (h0 : 0 ≤ score) (hsT : score ≤ totalQuestions) :
    (9/10 ≤ score / totalQuestions →
      (updateQuizReview db quizId score totalQuestions now).map Prod.snd =
        Except.ok (now + 2 ^ (quiz.reviewCount + 1) * 86400000)) ∧
    (7/10 ≤ score / totalQuestions → score / totalQuestions < 9/10 →
      (updateQuizReview db quizId score totalQuestions now).map Prod.snd =
        Except.ok (now + ((3 : ℚ)/2) ^ (quiz.reviewCount + 1) * 86400000)) ∧
    (score / totalQuestions < 7/10 →
      (updateQuizReview db quizId score totalQuestions now).map Prod.snd =
        Except.ok (now + 86400000)) := by
  unfold updateQuizReview
  rw [hfind]
  refine ⟨fun h1 => ?_, fun h1 h2 => ?_, fun h1 => ?_⟩
  · simp [reviewIntervalMs, ge_iff_le, h1, dayMs, Except.map]
    norm_num
  · simp [reviewIntervalMs, ge_iff_le, h1, not_le.2 h2, dayMs, Except.map]
    norm_num
  · simp [reviewIntervalMs, ge_iff_le, not_le.2 h1, Except.map,
      not_le.2 (h1.trans (show (7:ℚ)/10 < 9/10 by norm_num)), dayMs]
    norm_num

/-- C4: `getQuizzesDueForReview` returns exactly the quizzes of the queried
owner whose `nextReviewAt` is at or before the query time. -/
theorem getQuizzesDueForReview_spec (db : Db) (userId : Nat) (now : ℚ)
    (q : Quiz) :
    q ∈ getQuizzesDueForReview db userId now ↔
      q ∈ db.quizzes ∧ q.userId = userId ∧ q.nextReviewAt ≤ now :=
  mem_due_iff db userId now q

/-- C5: a freshly created quiz is due exactly one day after creation: its
row has `nextReviewAt = now + 1 day`, `reviewCount = 0`, no
`lastReviewedAt`; it is absent from the due list at creation time and
present at creation time plus two days. -/
theorem createQuiz_fresh_item (db : Db) (args : CreateQuizArgs) (now : ℚ) :
    ∃ q, q ∈ (createQuiz db args now).1.quizzes ∧
      q.id = (createQuiz db args now).2 ∧
      q.createdAt = now ∧
      q.nextReviewAt = now + 86400000 ∧
      q.reviewCount = 0 ∧
      q.lastReviewedAt = none ∧
      q ∉ getQuizzesDueForReview (createQuiz db args now).1 args.userId now ∧
      q ∈ getQuizzesDueForReview (createQuiz db args now).1 args.userId
        (now + 2 * 86400000) := by
  refine ⟨newQuizRow args now db.nextId, ?_, rfl, rfl, ?_, rfl, rfl, ?_, ?_⟩
  · simp [createQuiz]
  · show now + dayMs = now + 86400000
    norm_num [dayMs]
  · rw [mem_due_iff]
    rintro ⟨-, -, hle⟩
    rw [show (newQuizRow args now db.nextId).nextReviewAt = now + dayMs from
      rfl] at hle
    norm_num [dayMs] at hle
  · rw [mem_due_iff]
    refine ⟨by simp [createQuiz], rfl, ?_⟩
    show now + dayMs ≤ now + 2 * 86400000
    norm_num [dayMs]

/-- C6: `updateQuizReview` on an id that resolves to no quiz throws
`"Quiz not found"`; the mutation rolls back, leaving the store as it was. -/
theorem updateQuizReview_not_found (db : Db) (quizId : Nat)
    (score totalQuestions now : ℚ)
    (h : db.quizzes.find? (fun q => q.id == quizId) = none) :
    updateQuizReview db quizId score totalQuestions now =
      Except.error "Quiz not found" ∧
    stateAfter (updateQuizReview db quizId score totalQuestions now) db =
      db := by
  have h1 : updateQuizReview db quizId score totalQuestions now =
      Except.error "Quiz not found" := by
    unfold updateQuizReview
    rw [h]
  exact ⟨h1, by rw [h1]; rfl⟩

/-- C8: `recordQuizAttempt` appends exactly one attempt row, with
`completedAt` the insertion time, returns its id, and leaves the quizzes
and questions tables unchanged. -/
theorem recordQuizAttempt_appends (db : Db) (quizId userId : Nat)
    (score totalQuestions : ℚ) (answers : List String)
    (timeTaken : Option ℚ) (now : ℚ) :
    (recordQuizAttempt db quizId userId score totalQuestions answers
        timeTaken now).1.attempts =
      db.attempts ++ [newAttemptRow db.nextId quizId userId score
        totalQuestions answers timeTaken now] ∧
    (newAttemptRow db.nextId quizId userId score totalQuestions answers
        timeTaken now).completedAt = now ∧
    (recordQuizAttempt db quizId userId score totalQuestions answers
        timeTaken now).2 = db.nextId ∧
    (recordQuizAttempt db quizId userId score totalQuestions answers
        timeTaken now).1.quizzes = db.quizzes ∧
    (recordQuizAttempt db quizId userId score totalQuestions answers
        timeTaken now).1.questions = db.questions :=
  ⟨rfl, rfl, rfl, rfl, rfl⟩

theorem stateAfter_update_attempts (db : Db) (quizId : Nat)
    (score totalQuestions now : ℚ) :
    (stateAfter (updateQuizReview db quizId score totalQuestions now)
      db).attempts = db.attempts := by
  unfold updateQuizReview
  cases hf : db.quizzes.find? (fun q => q.id == quizId) with
  | none => rfl
  | some quiz => rfl

/-- C9: `deleteQuiz` removes the quiz together with exactly its questions
and its attempts, leaving rows of other quizzes in place; no other
operation ever removes an attempt. -/
theorem deleteQuiz_cascade (db : Db) (quizId : Nat) (args : CreateQuizArgs)
    (uid aqid : Nat) (score totalQuestions now : ℚ) (answers : List String)
    (timeTaken : Option ℚ) :
    (∀ q : Quiz, q ∈ (deleteQuiz db quizId).quizzes ↔
      q ∈ db.quizzes ∧ q.id ≠ quizId) ∧
    (∀ q : Question, q ∈ (deleteQuiz db quizId).questions ↔
      q ∈ db.questions ∧ q.quizId ≠ quizId) ∧
    (∀ a : QuizAttempt, a ∈ (deleteQuiz db quizId).attempts ↔
      a ∈ db.attempts ∧ a.quizId ≠ quizId) ∧
    (∀ a, a ∈ db.attempts → a ∈ (createQuiz db args now).1.attempts) ∧
    (∀ a, a ∈ db.attempts →
      a ∈ (recordQuizAttempt db aqid uid score totalQuestions answers
        timeTaken now).1.attempts) ∧
    (∀ a, a ∈ db.attempts →
      a ∈ (stateAfter (updateQuizReview db aqid score totalQuestions now)
        db).attempts) := by
  refine ⟨?_, ?_, ?_, ?_, ?_, ?_⟩
  · intro q; simp [deleteQuiz, List.mem_filter]
  · intro q; simp [deleteQuiz, List.mem_filter]
  · intro a; simp [deleteQuiz, List.mem_filter]
  · intro a ha; exact ha
  · intro a ha
    exact List.mem_append_left _ ha
  · intro a ha
    rw [stateAfter_update_attempts]
    exact ha

theorem eq_of_mem_of_pairwise_ne {l : List Quiz} {a b : Quiz}
    (ha : a ∈ l) (hb : b ∈ l)
    (hp : l.Pairwise (fun x y => x.id ≠ y.id)) (hid : a.id = b.id) :
    a = b := by
  induction l with
  | nil => cases ha
  | cons x xs ih =>
    cases hp with
    | cons hx hxs =>
      cases ha with
      | head =>
        cases hb with
        | head => rfl
        | tail _ hb2 => exact absurd hid (hx b hb2)
      | tail _ ha2 =>
        cases hb with
        | head => exact absurd hid.symm (hx a ha2)
        | tail _ hb2 => exact ih ha2 hb2 hxs

/-- C7: a successful `updateQuizReview` touches nothing but the target
row's `lastReviewedAt`, `nextReviewAt` and `reviewCount`: the questions
and attempts tables are untouched, every quiz row keeps its position and
its identity fields, and rows of other quizzes are unchanged. -/
theorem updateQuizReview_frame (db db2 : Db) (quizId : Nat)
    (score totalQuestions now r : ℚ)
    (hupd : updateQuizReview db quizId score totalQuestions now =
      Except.ok (db2, r)) :
    db2.questions = db.questions ∧ db2.attempts = db.attempts ∧
    db2.nextId = db.nextId ∧
    db2.quizzes.length = db.quizzes.length ∧
    (∀ i (hi : i < db.quizzes.length) (hi2 : i < db2.quizzes.length),
      ((db2.quizzes.get ⟨i, hi2⟩).id = (db.quizzes.get ⟨i, hi⟩).id ∧
       (db2.quizzes.get ⟨i, hi2⟩).userId = (db.quizzes.get ⟨i, hi⟩).userId ∧
       (db2.quizzes.get ⟨i, hi2⟩).title = (db.quizzes.get ⟨i, hi⟩).title ∧
       (db2.quizzes.get ⟨i, hi2⟩).content =
         (db.quizzes.get ⟨i, hi⟩).content ∧
       (db2.quizzes.get ⟨i, hi2⟩).summary =
         (db.quizzes.get ⟨i, hi⟩).summary ∧
       (db2.quizzes.get ⟨i, hi2⟩).fileType =
         (db.quizzes.get ⟨i, hi⟩).fileType ∧
       (db2.quizzes.get ⟨i, hi2⟩).fileName =
         (db.quizzes.get ⟨i, hi⟩).fileName ∧
       (db2.quizzes.get ⟨i, hi2⟩).createdAt =
         (db.quizzes.get ⟨i, hi⟩).createdAt ∧
       (db2.quizzes.get ⟨i, hi2⟩).difficulty =
         (db.quizzes.get ⟨i, hi⟩).difficulty) ∧
      ((db.quizzes.get ⟨i, hi⟩).id ≠ quizId →
        db2.quizzes.get ⟨i, hi2⟩ = db.quizzes.get ⟨i, hi⟩)) := by
  obtain ⟨quiz, hf, hdb2, hr⟩ := updateQuizReview_ok_elim hupd
  subst hdb2
  refine ⟨rfl, rfl, rfl, by simp, ?_⟩
  intro i hi hi2
  simp only [List.get_eq_getElem, List.getElem_map]
  by_cases hq : db.quizzes[i].id = quizId <;> simp [hq, patchReview]

/-- C2: `reviewCount` is a monotone attempt counter: `createQuiz` starts
it at 0 without touching existing rows, a successful `updateQuizReview`
sets the target's counter to exactly the loaded value plus one whatever
the performance band, no row's counter ever decreases, the bumped counter
is never zero, and `recordQuizAttempt` and `deleteQuiz` leave every
surviving quiz row unchanged. -/
theorem reviewCount_monotone_counter (db db2 : Db) (args : CreateQuizArgs)
    (quizId uid aqid : Nat) (quiz : Quiz) (score totalQuestions now r : ℚ)
    (answers : List String) (timeTaken : Option ℚ)
    (hfind : db.quizzes.find? (fun q => q.id == quizId) = some quiz)
    (hupd : updateQuizReview db quizId score totalQuestions now =
      Except.ok (db2, r))
    (huniq : db.quizzes.Pairwise (fun a b => a.id ≠ b.id)) :
    (createQuiz db args now).1.quizzes =
      db.quizzes ++ [newQuizRow args now db.nextId] ∧
    (newQuizRow args now db.nextId).reviewCount = 0 ∧
    (∀ q, q ∈ db2.quizzes → q.id = quizId →
      q.reviewCount = quiz.reviewCount + 1) ∧
    quiz.reviewCount + 1 ≠ 0 ∧
    (∀ i (hi : i < db.quizzes.length) (hi2 : i < db2.quizzes.length),
      (db.quizzes.get ⟨i, hi⟩).reviewCount ≤
        (db2.quizzes.get ⟨i, hi2⟩).reviewCount) ∧
    (recordQuizAttempt db aqid uid score totalQuestions answers timeTaken
      now).1.quizzes = db.quizzes ∧
    (∀ q, q ∈ (deleteQuiz db quizId).quizzes → q ∈ db.quizzes) := by
  obtain ⟨quiz2, hf2, hdb2, hr⟩ := updateQuizReview_ok_elim hupd
  rw [hfind] at hf2
  injection hf2 with hq2
  subst hq2
  subst hdb2
  have hqid : quiz.id = quizId := by
    have hb := List.find?_some hfind
    exact beq_iff_eq.mp hb
  have hqmem : quiz ∈ db.quizzes := List.mem_of_find?_eq_some hfind
  refine ⟨rfl, rfl, ?_, Nat.succ_ne_zero _, ?_, rfl, ?_⟩
  · intro q hq hid
    simp only [List.mem_map] at hq
    obtain ⟨q0, hq0, hfq⟩ := hq
    by_cases h0 : (q0.id == quizId) = true
    · rw [if_pos h0] at hfq
      subst hfq
      rfl
    · rw [if_neg h0] at hfq
      subst hfq
      exact absurd (beq_iff_eq.mpr hid) h0
  · intro i hi hi2
    simp only [List.get_eq_getElem, List.getElem_map]
    by_cases h0 : db.quizzes[i].id = quizId
    · have heq : db.quizzes[i] = quiz :=
        eq_of_mem_of_pairwise_ne (List.getElem_mem hi) hqmem huniq
          (h0.trans hqid.symm)
      have hb : (db.quizzes[i].id == quizId) = true := beq_iff_eq.mpr h0
      rw [if_pos hb, heq]
      exact Nat.le_succ quiz.reviewCount
    · have hb : ¬((db.quizzes[i].id == quizId) = true) := by simp [h0]
      rw [if_neg hb]
  · intro q hq
    exact List.mem_of_mem_filter hq

/-- C10: in every band the chosen interval is at least one day, so a
successful `updateQuizReview` returns and persists a `nextReviewAt` at
least `now + 86400000` milliseconds. -/
theorem updateQuizReview_min_one_day (db db2 : Db) (quizId : Nat)
    (quiz : Quiz) (score totalQuestions now r : ℚ)
    (hfind : db.quizzes.find? (fun q => q.id == quizId) = some quiz)
    (hT : 0 < totalQuestions) (h0 : 0 ≤ score) (hsT : score ≤ totalQuestions)
    (hupd : updateQuizReview db quizId score totalQuestions now =
      Except.ok (db2, r)) :
    now + 86400000 ≤ r ∧
    (∀ q, q ∈ db2.quizzes → q.id = quizId →
      now + 86400000 ≤ q.nextReviewAt) := by
  obtain ⟨quiz2, hf2, hdb2, hr⟩ := updateQuizReview_ok_elim hupd
  rw [hfind] at hf2
  injection hf2 with hq2
  subst hq2
  subst hdb2
  have hday : (86400000 : ℚ) = dayMs := by norm_num [dayMs]
  have hint : dayMs ≤
      reviewIntervalMs quiz.reviewCount (score / totalQuestions) :=
    dayMs_le_reviewIntervalMs _ _
  constructor
  · rw [hr, hday]
    linarith
  · intro q hq hid
    simp only [List.mem_map] at hq
    obtain ⟨q0, hq0, hfq⟩ := hq
    by_cases hc : (q0.id == quizId) = true
    · rw [if_pos hc] at hfq
      subst hfq
      show now + 86400000 ≤ now +
        reviewIntervalMs quiz.reviewCount (score / totalQuestions)
      rw [hday]
      linarith
    · rw [if_neg hc] at hfq
      subst hfq
      exact absurd (beq_iff_eq.mpr hid) hc

/-- C3 counterexample: `updateQuizReview` called with `score = 11`,
`totalQuestions = 10` does not fail: there is no input validation, the
performance 1.1 lands in the high band and the call succeeds. -/
theorem updateQuizReview_score_gt_total_cex :
    updateQuizReview exDb 1 11 10 1000 = Except.ok (exDb9, 172801000) := by
  simp [updateQuizReview, exDb, exQuiz, exDb9, exQuiz9, reviewIntervalMs,
    patchReview, dayMs, List.find?]
  norm_num

/-- C3 amended: `updateQuizReview` performs no validation of `score` or
`totalQuestions`; whenever the quiz exists and the ratio is at least 0.9
— including out-of-range inputs such as `score = 11`,
`totalQuestions = 10` — the call succeeds and applies the high band
instead of rejecting. -/
theorem updateQuizReview_no_validation (db : Db) (quizId : Nat)
    (quiz : Quiz) (score totalQuestions now : ℚ)
    (hfind : db.quizzes.find? (fun q => q.id == quizId) = some quiz)
    (hp : 9/10 ≤ score / totalQuestions) :
    (updateQuizReview db quizId score totalQuestions now).map Prod.snd =
      Except.ok (now + 2 ^ (quiz.reviewCount + 1) * 86400000) := by
  unfold updateQuizReview
  rw [hfind]
  simp [reviewIntervalMs, ge_iff_le, hp, dayMs, Except.map]
  norm_num

theorem updateQuizReview_no_validation_witness :
    exDb.quizzes.find? (fun q => q.id == 1) = some exQuiz ∧
    (9 : ℚ)/10 ≤ 11/10 ∧
    (updateQuizReview exDb 1 11 10 1000).map Prod.snd =
      Except.ok (1000 + 2 ^ (exQuiz.reviewCount + 1) * 86400000) := by
  have hp : (9 : ℚ)/10 ≤ 11/10 := by norm_num
  exact ⟨rfl, hp,
    updateQuizReview_no_validation exDb 1 exQuiz 11 10 1000 rfl hp⟩

theorem updateQuizReview_bands_witness :
    exDb.quizzes.find? (fun q => q.id == 1) = some exQuiz ∧
    (0 : ℚ) < 10 ∧ (0 : ℚ) ≤ 9 ∧ (9 : ℚ) ≤ 10 ∧
    (updateQuizReview exDb 1 9 10 1000).map Prod.snd =
      Except.ok (1000 + 2 ^ (exQuiz.reviewCount + 1) * 86400000) :=
  ⟨rfl, by decide, by decide, by decide,
    (updateQuizReview_bands exDb 1 exQuiz 9 10 1000 rfl (by decide)
      (by decide) (by decide)).1 (le_refl ((9 : ℚ)/10))⟩

theorem updateQuizReview_not_found_witness :
    exDb.quizzes.find? (fun q => q.id == 2) = none ∧
    updateQuizReview exDb 2 9 10 1000 = Except.error "Quiz not found" ∧
    stateAfter (updateQuizReview exDb 2 9 10 1000) exDb = exDb := by
  have h : exDb.quizzes.find? (fun q => q.id == 2) = none := rfl
  obtain ⟨h1, h2⟩ := updateQuizReview_not_found exDb 2 9 10 1000 h
  exact ⟨h, h1, h2⟩

theorem updateQuizReview_frame_witness :
    updateQuizReview exDb 1 9 10 1000 = Except.ok (exDb9, 172801000) ∧
    exDb9.questions = exDb.questions ∧ exDb9.attempts = exDb.attempts ∧
    exDb9.quizzes.length = exDb.quizzes.length := by
  have h : updateQuizReview exDb 1 9 10 1000 =
      Except.ok (exDb9, 172801000) := by
    simp [updateQuizReview, exDb, exQuiz, exDb9, exQuiz9, reviewIntervalMs,
      patchReview, dayMs, List.find?]
    norm_num
  obtain ⟨h1, h2, h3, h4, h5⟩ :=
    updateQuizReview_frame exDb exDb9 1 9 10 1000 172801000 h
  exact ⟨h, h1, h2, h4⟩

theorem reviewCount_monotone_counter_witness :
    exDb.quizzes.find? (fun q => q.id == 1) = some exQuiz ∧
    updateQuizReview exDb 1 9 10 1000 = Except.ok (exDb9, 172801000) ∧
    List.Pairwise (fun a b => a.id ≠ b.id) exDb.quizzes ∧
    (newQuizRow exArgs 1000 2).reviewCount = 0 ∧
    exQuiz9.reviewCount = exQuiz.reviewCount + 1 := by
  have hfind : exDb.quizzes.find? (fun q => q.id == 1) = some exQuiz := rfl
  have hupd : updateQuizReview exDb 1 9 10 1000 =
      Except.ok (exDb9, 172801000) := by
    simp [updateQuizReview, exDb, exQuiz, exDb9, exQuiz9, reviewIntervalMs,
      patchReview, dayMs, List.find?]
    norm_num
  have huniq : List.Pairwise (fun a b => a.id ≠ b.id) exDb.quizzes := by
    simp [exDb]
  have hall := reviewCount_monotone_counter exDb exDb9 exArgs 1 7 1 exQuiz
    9 10 1000 172801000 [] none hfind hupd huniq
  exact ⟨hfind, hupd, huniq, hall.2.1,
    hall.2.2.1 exQuiz9 (by simp [exDb9]) rfl⟩

theorem updateQuizReview_min_one_day_witness :
    exDb.quizzes.find? (fun q => q.id == 1) = some exQuiz ∧
    (0 : ℚ) < 10 ∧ (0 : ℚ) ≤ 9 ∧ (9 : ℚ) ≤ 10 ∧
    updateQuizReview exDb 1 9 10 1000 = Except.ok (exDb9, 172801000) ∧
    (1000 : ℚ) + 86400000 ≤ 172801000 := by
  have hfind : exDb.quizzes.find? (fun q => q.id == 1) = some exQuiz := rfl
  have hupd : updateQuizReview exDb 1 9 10 1000 =
      Except.ok (exDb9, 172801000) := by
    simp [updateQuizReview, exDb, exQuiz, exDb9, exQuiz9, reviewIntervalMs,
      patchReview, dayMs, List.find?]
    norm_num
  exact ⟨hfind, by decide, by decide, by decide, hupd,
    (updateQuizReview_min_one_day exDb exDb9 1 exQuiz 9 10 1000 172801000
      hfind (by decide) (by decide) (by decide) hupd).1⟩
